import Mathlib

/-!
Verification development for `libresponse`, centred on the response-equation
orchestrator `solve_linear_response` in `src/linear/interface_nonorthogonal.C`.

The orchestrator is shallowly embedded as pure Lean functions over exact
rationals (the C++ uses doubles; the algebraic content is field arithmetic).
Armadillo matrices become lists of rows (`Mat`), cubes become lists of slices,
and fallible control flow (`throw`, `assert`) becomes an `Except`-style result.
The external iterative solver, the checkpoint files on disk and the
linear-algebra pseudo-inverse primitive are collaborators of the orchestrator,
not part of it; they enter the embedding as explicit function-valued inputs,
mirroring the `SolverIterator_nonorthogonal *`, the filesystem and
`arma::pinv` that the C++ routine consumes.

Helper routines that live in translation units of the repository outside
`src/` (`linear/helpers.C`, `indices.C`, `operator_spec.C`, `utils.C`) are
modelled from the specification; each such definition carries a doc comment
starting with `Modelled from the spec:`.  Everything else is translated from
`src/linear/interface_nonorthogonal.C` directly, with line references.
-/

set_option maxRecDepth 4000
set_option maxHeartbeats 1000000

/-- A vector of exact scalars (stand-in for a flat array of doubles). -/
abbrev Vec := List ℚ

/-- A matrix as a list of rows (stand-in for `arma::mat`). -/
abbrev Mat := List Vec

/-- Number of columns of a matrix (length of its first row), `arma` `n_cols`. -/
def n_cols (M : Mat) : Nat := (M.headD []).length

/-- Entry `(i, j)` of a matrix, 0 outside the stored area. -/
def mat_entry (M : Mat) (i j : Nat) : ℚ := (M.getD i []).getD j 0

/-- Dot product of two vectors of equal length. -/
def vec_dot (x y : Vec) : ℚ := (List.zipWith (fun a b => a * b) x y).sum

/-- Matrix transpose. -/
def mat_transpose (M : Mat) : Mat :=
  (List.range (n_cols M)).map (fun j => M.map (fun r => r.getD j 0))

/-- Matrix product (row-by-column dot products). -/
def mat_mul (A B : Mat) : Mat :=
  A.map (fun r => (List.range (n_cols B)).map (fun j => vec_dot r (B.map (fun br => br.getD j 0))))

/-- Entry-wise scaling of a matrix, `arma` `c * M`. -/
def mat_scale (c : ℚ) (A : Mat) : Mat := A.map (fun r => r.map (fun x => c * x))

/-- Entry-wise sum of two matrices of equal shape, `arma` `A + B`. -/
def mat_add (A B : Mat) : Mat :=
  List.zipWith (fun r s => List.zipWith (fun x y => x + y) r s) A B

/-- Columns `[start, start+len)` of a matrix, `arma` `span` column slicing. -/
def cols_range (M : Mat) (start len : Nat) : Mat :=
  M.map (fun r => (r.drop start).take len)

/-- One property operator handed to the orchestrator (`operator_spec`):
its AO-basis integral components, the per-spin-channel MO-basis gradient
("RHS") vectors derived from them, the per-spin-channel response vectors,
a flag marking participation in the iterative solve, and a label used in
checkpoint filenames. -/
structure operator_spec where
  operator_label : String := ""
  do_response : Bool := false
  integrals_ao : List Mat := []
  rhs_alph : List Vec := []
  rhs_beta : List Vec := []
  rspvecs_alph : List Vec := []
  rspvecs_beta : List Vec := []
  deriving DecidableEq, Repr

/-- The configuration surface consumed by `solve_linear_response`
(read-only typed key lookup in the C++; a record here).  `prefix_str`
models the optional "prefix" key: `none` when `has_param` is false. -/
structure configurable where
  print_level : Int := 0
  solver : String := ""
  maxiter : Nat := 0
  conv : Int := 0
  hamiltonian : String := ""
  spin : String := ""
  do_orthogonalization_canonical : Bool := false
  frgm_response_idx : Int := 0
  mask_ediff_mo : Bool := false
  mask_form_results_mo : Bool := false
  save : Int := 0
  read : Int := 0
  prefix_str : Option String := none
  deriving DecidableEq, Repr

/-- How an orchestrator call aborts: one constructor per `assert` in
`solve_linear_response` (lines 26, 39, 55, 59, 62) and one for the
`std::runtime_error` configuration errors (lines 28-31). -/
inductive SolveErr where
  | assertOccLen
  | assertNden
  | assertNorbAlph
  | assertNorbBeta
  | assertClosedShell
  | config (msg : String)
  deriving DecidableEq, Repr

/-- What a successful orchestrator call produces: the final results tensor
(one square slice per frequency, written into the caller's `results` cube)
and the names of the energy-difference checkpoint files it wrote. -/
structure SolveOutput where
  results : List Mat := []
  saved_ediff_files : List String := []
  deriving DecidableEq, Repr

/-- The full argument list of `solve_linear_response` (lines 11-23), with the
external collaborators made explicit: `solverRun` is the in-place mutation of
the operator batch performed by `solver_iterator->init(...); run()`, `diskMo`
and `diskAo` are the checkpoint files visible to `arma` `load` in MO and AO
basis, and `pinv` is the `arma::pinv` primitive. -/
structure SolveInputs where
  solverRun : List operator_spec → ℚ → List operator_spec
  diskMo : String → Option (List Vec)
  diskAo : String → Option (List Mat)
  pinv : Mat → Mat
  C : List Mat
  fragment_occupations : List (List Nat)
  occupations : List Nat
  F : List Mat
  S : Mat
  omega : List ℚ
  operators : List operator_spec
  cfg : configurable

/-- Modelled from the spec: `make_indices_mo_restricted_local_occ_all_virt`
(`indices.C`, not under `src/`).  Given per-fragment occupied counts and
per-fragment virtual counts, returns for each fragment the pooled
"local occupied x all virtual" rotation-pair index set: occupied orbitals are
numbered fragment-by-fragment, and pair `(i, a)` is flattened as
`i * nvirt_total + a` with the virtual index fast. -/
def make_indices_mo_restricted_local_occ_all_virt (nocc_frgm nvirt_frgm : List Nat) :
    List (List Nat) :=
  let nvirt_total := nvirt_frgm.sum
  (List.range nocc_frgm.length).map (fun k =>
    let occ_offset := (nocc_frgm.take k).sum
    ((List.range (nocc_frgm.getD k 0)).map (fun i =>
      (List.range nvirt_total).map (fun a => (occ_offset + i) * nvirt_total + a))).flatten)

/-- Modelled from the spec: `make_indices_mo_restricted` (`indices.C`, not
under `src/`).  Pools, over all fragments, the rotation pairs whose occupied
and virtual orbitals both belong to the same fragment, flattened with the
virtual index fast. -/
def make_indices_mo_restricted (nocc_frgm nvirt_frgm : List Nat) : List Nat :=
  let nvirt_total := nvirt_frgm.sum
  ((List.range nocc_frgm.length).map (fun k =>
    let occ_offset := (nocc_frgm.take k).sum
    let virt_offset := (nvirt_frgm.take k).sum
    ((List.range (nocc_frgm.getD k 0)).map (fun i =>
      (List.range (nvirt_frgm.getD k 0)).map (fun a =>
        (occ_offset + i) * nvirt_total + (virt_offset + a)))).flatten)).flatten

/-- Modelled from the spec: `form_ediff_terms` (`linear/helpers.C`, not under
`src/`).  Builds the uncoupled energy-difference operator of one spin channel
from the MO-basis Fock matrix and MO-basis overlap alone (those are exactly
the arguments the orchestrator passes at lines 182 and 185); in the
orthogonal limit `sigma = I` its diagonal reduces to virtual-minus-occupied
orbital-energy differences. -/
def form_ediff_terms (Fmo sigma : Mat) (nocc nvirt : Nat) : Mat :=
  (List.range (nocc * nvirt)).map (fun r =>
    (List.range (nocc * nvirt)).map (fun c =>
      let i := r / nvirt
      let a := r % nvirt
      let j := c / nvirt
      let b := c % nvirt
      mat_entry Fmo (nocc + a) (nocc + b) * mat_entry sigma i j -
        mat_entry Fmo i j * mat_entry sigma (nocc + a) (nocc + b)))

/-- Modelled from the spec: `make_masked_mat` (`linear/helpers.C`, not under
`src/`).  Zeroes every entry whose row or column index lies outside the index
set; when the diagonal policy flag is set, diagonal entries of excluded
indices keep their value instead, so the masked energy-difference operator
stays usable as a denominator. -/
def make_masked_mat (M : Mat) (idx : List Nat) (fill : ℚ) (keep_diag : Bool) : Mat :=
  (List.range M.length).map (fun r =>
    (List.range ((M.getD r []).length)).map (fun c =>
      if r ∈ idx ∧ c ∈ idx then mat_entry M r c
      else if r = c ∧ keep_diag then mat_entry M r c
      else fill))

/-- Modelled from the spec: `one_electron_mn_mats_to_ia_vecs` (`utils.C`, not
under `src/`) applied to a single AO matrix: the occupied-virtual MO block
`C_occ^T * M * C_virt`, flattened with the virtual index fast. -/
def one_electron_mn_mat_to_ia_vec (M Cocc Cvirt : Mat) : Vec :=
  (mat_mul (mat_transpose Cocc) (mat_mul M Cvirt)).flatten

/-- Modelled from the spec: `one_electron_mn_mats_to_ia_vecs` (`utils.C`, not
under `src/`): each slice of an AO cube becomes one occupied-virtual MO
vector. -/
def one_electron_mn_mats_to_ia_vecs (Ms : List Mat) (Cocc Cvirt : Mat) : List Vec :=
  Ms.map (fun M => one_electron_mn_mat_to_ia_vec M Cocc Cvirt)

/-- Modelled from the spec: the element-wise uncoupled-guess formula of
`operator_spec::form_guess_rspvec` (`operator_spec.C`, not under `src/`):
`guess = gradient / (ediff - frequency)` on the flattened occ-virt index,
using the diagonal of the energy-difference operator. -/
def guessVec (ediff : Mat) (freq : ℚ) (g : Vec) : Vec :=
  (List.range g.length).map (fun n => g.getD n 0 / (mat_entry ediff n n - freq))

/-- Modelled from the spec: restricted inner product used by the results
assembler when fragment masking is on — excluded indices do not contribute. -/
def dot_restricted (idx : List Nat) (x y : Vec) : ℚ :=
  (idx.map (fun n => x.getD n 0 * y.getD n 0)).sum

/-- Modelled from the spec: one slice of `form_results` — entry `[p, q]` is
the (optionally index-restricted) inner product of property component `p`'s
gradient vector with response component `q`'s response vector. -/
def results_slice (grads rsps : List Vec) : Option (List Nat) → Mat
  | none => grads.map (fun gp => rsps.map (fun rq => vec_dot gp rq))
  | some s => grads.map (fun gp => rsps.map (fun rq => dot_restricted s gp rq))

/-- Modelled from the spec: `form_results` (`linear/helpers.C`, not under
`src/`).  Assigns the per-frequency results cube afresh: one slice per spin
channel, pooling the components of every operator, optionally restricted to
the per-channel fragment index sets. -/
def form_results (ops : List operator_spec) (nd : Nat) (idx : Option (List (List Nat))) :
    List Mat :=
  let gradsA := (ops.map (fun op => op.rhs_alph)).flatten
  let rspsA := (ops.map (fun op => op.rspvecs_alph)).flatten
  if nd = 2 then
    let gradsB := (ops.map (fun op => op.rhs_beta)).flatten
    let rspsB := (ops.map (fun op => op.rspvecs_beta)).flatten
    [results_slice gradsA rspsA (idx.map (fun l => l.getD 0 [])),
     results_slice gradsB rspsB (idx.map (fun l => l.getD 1 []))]
  else
    [results_slice gradsA rspsA (idx.map (fun l => l.getD 0 []))]

/-- Number of spin channels (`nden = C.n_slices`, line 35). -/
def nden (inp : SolveInputs) : Nat := inp.C.length

/-- Number of molecular orbitals (`norb = C.n_cols`, line 37). -/
def norb (inp : SolveInputs) : Nat := n_cols (inp.C.getD 0 [])

/-- `nocc_alph = occupations(0)` (line 53). -/
def nocc_alph (inp : SolveInputs) : Nat := inp.occupations.getD 0 0

/-- `nvirt_alph = occupations(1)` (line 54). -/
def nvirt_alph (inp : SolveInputs) : Nat := inp.occupations.getD 1 0

/-- `nocc_beta = occupations(2)` (line 57). -/
def nocc_beta (inp : SolveInputs) : Nat := inp.occupations.getD 2 0

/-- `nvirt_beta = occupations(3)` (line 58). -/
def nvirt_beta (inp : SolveInputs) : Nat := inp.occupations.getD 3 0

/-- `nov_alph = nocc_alph * nvirt_alph` (line 56). -/
def nov_alph (inp : SolveInputs) : Nat := nocc_alph inp * nvirt_alph inp

/-- `nov_beta = nocc_beta * nvirt_beta` (line 60). -/
def nov_beta (inp : SolveInputs) : Nat := nocc_beta inp * nvirt_beta inp

/-- The input checks of `solve_linear_response` in program order: the
occupation-length assert (line 26), the two `std::runtime_error` throws for an
empty frequency or operator list (lines 28-31), the channel-count assert
(line 39), the two `norb = nocc_s + nvirt_s` asserts (lines 55 and 59) and the
closed-shell symmetry assert (lines 61-62).  `none` means all checks pass. -/
def validate (inp : SolveInputs) : Option SolveErr :=
  if inp.occupations.length ≠ 4 then some .assertOccLen
  else if inp.omega = [] then some (.config "Supply one or more frequencies.")
  else if inp.operators = [] then some (.config "Supply one or more operators.")
  else if ¬(nden inp = 1 ∨ nden inp = 2) then some .assertNden
  else if norb inp ≠ nocc_alph inp + nvirt_alph inp then some .assertNorbAlph
  else if norb inp ≠ nocc_beta inp + nvirt_beta inp then some .assertNorbBeta
  else if nocc_alph inp = nocc_beta inp ∧ nov_alph inp ≠ nov_beta inp then
    some .assertClosedShell
  else none

/-- `C_occ_alph` — occupied columns of the alpha coefficient slice (line 102). -/
def C_occ_alph (inp : SolveInputs) : Mat := cols_range (inp.C.getD 0 []) 0 (nocc_alph inp)

/-- `C_virt_alph` — virtual columns of the alpha coefficient slice (line 103). -/
def C_virt_alph (inp : SolveInputs) : Mat :=
  cols_range (inp.C.getD 0 []) (nocc_alph inp) (norb inp - nocc_alph inp)

/-- `C_occ_beta` — occupied columns of the beta coefficient slice (line 107). -/
def C_occ_beta (inp : SolveInputs) : Mat := cols_range (inp.C.getD 1 []) 0 (nocc_beta inp)

/-- `C_virt_beta` — virtual columns of the beta coefficient slice (line 108). -/
def C_virt_beta (inp : SolveInputs) : Mat :=
  cols_range (inp.C.getD 1 []) (nocc_beta inp) (norb inp - nocc_beta inp)

/-- MO-basis overlap `sigma_alph = C(0)^T * S * C(0)` (line 112). -/
def sigma_alph (inp : SolveInputs) : Mat :=
  mat_mul (mat_transpose (inp.C.getD 0 [])) (mat_mul inp.S (inp.C.getD 0 []))

/-- MO-basis overlap `sigma_beta = C(1)^T * S * C(1)` (line 115). -/
def sigma_beta (inp : SolveInputs) : Mat :=
  mat_mul (mat_transpose (inp.C.getD 1 [])) (mat_mul inp.S (inp.C.getD 1 []))

/-- MO-basis Fock matrix `F_alph = C(0)^T * F(0) * C(0)` (line 118). -/
def F_mo_alph (inp : SolveInputs) : Mat :=
  mat_mul (mat_transpose (inp.C.getD 0 [])) (mat_mul (inp.F.getD 0 []) (inp.C.getD 0 []))

/-- MO-basis Fock matrix `F_beta = C(1)^T * F(1) * C(1)` (line 121). -/
def F_mo_beta (inp : SolveInputs) : Mat :=
  mat_mul (mat_transpose (inp.C.getD 1 [])) (mat_mul (inp.F.getD 1 []) (inp.C.getD 1 []))

/-- `S_inv = arma::pinv(S)`, computed only under the canonical
orthogonalization flag (lines 132-137).  No later statement of
`solve_linear_response` reads this value. -/
def S_inv (inp : SolveInputs) : Mat :=
  if inp.cfg.do_orthogonalization_canonical then inp.pinv inp.S else []

/-- `sigma_inv_alph = arma::pinv(sigma_alph)` under the flag (line 138).
No later statement of `solve_linear_response` reads this value. -/
def sigma_inv_alph (inp : SolveInputs) : Mat :=
  if inp.cfg.do_orthogonalization_canonical then inp.pinv (sigma_alph inp) else []

/-- `sigma_inv_beta = arma::pinv(sigma_beta)` under the flag (lines 139-140).
No later statement of `solve_linear_response` reads this value. -/
def sigma_inv_beta (inp : SolveInputs) : Mat :=
  if inp.cfg.do_orthogonalization_canonical then inp.pinv (sigma_beta inp) else []

/-- The alpha restricted index set (lines 149-166): for a positive
`_frgm_response_idx` the one-based selected fragment's entry of the
"local occupied x all virtual" family — note that line 159 of the source
passes the BETA per-fragment virtual counts `nvirt_frgm_beta` for the alpha
channel — otherwise the pooled per-fragment restricted set built from the
alpha counts. -/
def indices_mo_alph_sel (ft : List (List Nat)) (fidx : Int) : List Nat :=
  let norb_frgm := ft.map (fun r => r.getD 1 0)
  let nocc_frgm_alph := ft.map (fun r => r.getD 2 0)
  let nocc_frgm_beta := ft.map (fun r => r.getD 3 0)
  let nvirt_frgm_alph := List.zipWith (fun a b => a - b) norb_frgm nocc_frgm_alph
  let nvirt_frgm_beta := List.zipWith (fun a b => a - b) norb_frgm nocc_frgm_beta
  if 0 < fidx then
    (make_indices_mo_restricted_local_occ_all_virt nocc_frgm_alph nvirt_frgm_beta).getD
      (fidx.toNat - 1) []
  else
    make_indices_mo_restricted nocc_frgm_alph nvirt_frgm_alph

/-- The beta restricted index set (lines 149-166): beta occupied counts with
beta virtual counts in both branches (lines 160 and 165). -/
def indices_mo_beta_sel (ft : List (List Nat)) (fidx : Int) : List Nat :=
  let norb_frgm := ft.map (fun r => r.getD 1 0)
  let nocc_frgm_beta := ft.map (fun r => r.getD 3 0)
  let nvirt_frgm_beta := List.zipWith (fun a b => a - b) norb_frgm nocc_frgm_beta
  if 0 < fidx then
    (make_indices_mo_restricted_local_occ_all_virt nocc_frgm_beta nvirt_frgm_beta).getD
      (fidx.toNat - 1) []
  else
    make_indices_mo_restricted nocc_frgm_beta nvirt_frgm_beta

/-- `indices_mo_alph` as the orchestrator builds it (lines 156-166). -/
def indices_mo_alph (inp : SolveInputs) : List Nat :=
  indices_mo_alph_sel inp.fragment_occupations inp.cfg.frgm_response_idx

/-- `indices_mo_beta` as the orchestrator builds it (lines 156-166). -/
def indices_mo_beta (inp : SolveInputs) : List Nat :=
  indices_mo_beta_sel inp.fragment_occupations inp.cfg.frgm_response_idx

/-- The two-entry index family `indices_mo` (lines 167-169). -/
def indices_mo (inp : SolveInputs) : List (List Nat) :=
  [indices_mo_alph inp, indices_mo_beta inp]

/-- The alpha energy-difference operator after optional masking
(lines 180-182 and 194-198). -/
def ediff_alph (inp : SolveInputs) : Mat :=
  let raw := form_ediff_terms (F_mo_alph inp) (sigma_alph inp) (nocc_alph inp) (nvirt_alph inp)
  if inp.cfg.mask_ediff_mo then make_masked_mat raw (indices_mo_alph inp) 0 true else raw

/-- The beta energy-difference operator after optional masking
(lines 183-186 and 199-202). -/
def ediff_beta (inp : SolveInputs) : Mat :=
  let raw := form_ediff_terms (F_mo_beta inp) (sigma_beta inp) (nocc_beta inp) (nvirt_beta inp)
  if inp.cfg.mask_ediff_mo then make_masked_mat raw (indices_mo_beta inp) 0 true else raw

/-- Name of an energy-difference checkpoint file (lines 217-219):
caller-supplied prefix, fixed tag, spin tag, fixed suffix. -/
def ediff_save_filename (pre spin : String) : String := pre ++ "ediff_" ++ spin ++ ".dat"

/-- Name of a response-vector checkpoint file as the read loop builds it
(lines 240, 244, 253, 257): fixed tag, operator label, basis tag, spin tag,
fixed suffix — the caller-supplied prefix does NOT appear. -/
def rspvec_read_filename (label basis spin : String) : String :=
  "rspvecs_" ++ label ++ "_" ++ basis ++ "_" ++ spin ++ ".dat"

/-- The energy-difference files written when `save > 0` (lines 210-220). -/
def saved_ediff_files (inp : SolveInputs) : List String :=
  if inp.cfg.save > 0 then
    ediff_save_filename (inp.cfg.prefix_str.getD "") "alph" ::
      (if nden inp = 2 then [ediff_save_filename (inp.cfg.prefix_str.getD "") "beta"] else [])
  else []

/-- Modelled from the spec: the gradient-formation step
`operators[i].form_rhs(C, occupations, cfg)` (line 230; `operator_spec.C` is
not under `src/`): each AO integral component becomes a per-channel
occupied-virtual MO gradient vector, the beta one only for two channels. -/
def rhs_step_core (nd : Nat) (coA cvA coB cvB : Mat) (ops : List operator_spec) :
    List operator_spec :=
  ops.map (fun op =>
    { op with
      rhs_alph := op.integrals_ao.map (fun M => one_electron_mn_mat_to_ia_vec M coA cvA),
      rhs_beta :=
        if nd = 2 then op.integrals_ao.map (fun M => one_electron_mn_mat_to_ia_vec M coB cvB)
        else [] })

/-- The checkpoint read loop (lines 233-265): for each operator that
participates in the response solve, read mode 1 loads the MO-basis response
vectors from disk, read mode 2 loads them in the AO basis and transforms them
with the occupied/virtual coefficient blocks, any other mode leaves the
operator untouched; the beta channel is handled the same way when two
channels are present.  A file that is absent loads as an empty array
(`arma` `load` resets the object on failure). -/
def read_op (read : Int) (nd : Nat) (dmo : String → Option (List Vec))
    (dao : String → Option (List Mat)) (coA cvA coB cvB : Mat)
    (op : operator_spec) : operator_spec :=
  if op.do_response then
    let op1 :=
      if read = 1 then
        { op with rspvecs_alph :=
            (dmo (rspvec_read_filename op.operator_label "mo" "alph")).getD [] }
      else if read = 2 then
        { op with rspvecs_alph :=
            (one_electron_mn_mats_to_ia_vecs
              ((dao (rspvec_read_filename op.operator_label "ao" "alph")).getD []) coA cvA) }
      else op
    if nd = 2 then
      if read = 1 then
        { op1 with rspvecs_beta :=
            (dmo (rspvec_read_filename op.operator_label "mo" "beta")).getD [] }
      else if read = 2 then
        { op1 with rspvecs_beta :=
            (one_electron_mn_mats_to_ia_vecs
              ((dao (rspvec_read_filename op.operator_label "ao" "beta")).getD []) coB cvB) }
      else op1
    else op1
  else op

/-- The checkpoint read loop over the whole operator batch (lines 236-265). -/
def read_ops (read : Int) (nd : Nat) (dmo : String → Option (List Vec))
    (dao : String → Option (List Mat)) (coA cvA coB cvB : Mat)
    (ops : List operator_spec) : List operator_spec :=
  ops.map (read_op read nd dmo dao coA cvA coB cvB)

/-- The per-frequency guess block (lines 281-296): only in read mode 0 is the
uncoupled guess formed, for the alpha channel and, with two channels, for the
beta channel; in any other read mode the operators pass through unchanged and
the previously loaded vectors remain the solver's starting point. -/
def guess_op (nd : Nat) (eda edb : Mat) (freq : ℚ) (op : operator_spec) : operator_spec :=
  let op1 := { op with rspvecs_alph := op.rhs_alph.map (guessVec eda freq) }
  if nd = 2 then { op1 with rspvecs_beta := op1.rhs_beta.map (guessVec edb freq) }
  else op1

/-- The guess block over the whole batch (lines 281-296): formed only in read
mode 0; in read modes 1 and 2 the operators pass through unchanged. -/
def guess_ops (read : Int) (nd : Nat) (eda edb : Mat) (freq : ℚ)
    (ops : List operator_spec) : List operator_spec :=
  if read = 0 then ops.map (guess_op nd eda edb freq) else ops

/-- `form_results` dispatch on the `_mask_form_results_mo` flag
(lines 299-304 and 333-336). -/
def form_results_sel (nd : Nat) (mask : Bool) (idx : List (List Nat))
    (ops : List operator_spec) : List Mat :=
  if mask then form_results ops nd (some idx) else form_results ops nd none

/-- One iteration of the frequency loop (lines 273-344): form the guesses
(read mode 0 only), compute — at `print_level >= 1`, for printing only — the
uncoupled results cube, doubled in place for two channels (lines 300-314),
hand the batch to the external solver, then assemble the per-frequency
results cube afresh from the converged response vectors (lines 333-336).
Returns the mutated operator batch and the per-frequency cube. -/
def freq_step_core (slv : List operator_spec → ℚ → List operator_spec)
    (read pl : Int) (nd : Nat) (mask : Bool) (idx : List (List Nat)) (eda edb : Mat)
    (ops : List operator_spec) (freq : ℚ) : List operator_spec × List Mat :=
  let opsG := guess_ops read nd eda edb freq ops
  let _results_freq_uncoupled :=
    if 1 ≤ pl then
      let c := form_results_sel nd mask idx opsG
      if nd = 2 then c.map (mat_scale 2) else c
    else []
  let opsS := slv opsG freq
  let results_freq := form_results_sel nd mask idx opsS
  (opsS, results_freq)

/-- The frequency loop (lines 273-344): strictly sequential, threading the
operator batch, collecting one per-frequency cube per frequency in input
order. -/
def freq_loop_core (slv : List operator_spec → ℚ → List operator_spec)
    (read pl : Int) (nd : Nat) (mask : Bool) (idx : List (List Nat)) (eda edb : Mat) :
    List operator_spec → List ℚ → List (List Mat)
  | _, [] => []
  | ops, freq :: rest =>
    let p := freq_step_core slv read pl nd mask idx eda edb ops freq
    p.2 :: freq_loop_core slv read pl nd mask idx eda edb p.1 rest

/-- The operator batch as it enters the frequency loop: gradients formed
(line 230), then checkpoint response vectors read (lines 233-265). -/
def operators_prepared (inp : SolveInputs) : List operator_spec :=
  read_ops inp.cfg.read (nden inp) inp.diskMo inp.diskAo
    (C_occ_alph inp) (C_virt_alph inp) (C_occ_beta inp) (C_virt_beta inp)
    (rhs_step_core (nden inp) (C_occ_alph inp) (C_virt_alph inp)
      (C_occ_beta inp) (C_virt_beta inp) inp.operators)

/-- The guess block at one frequency, with the orchestrator's own
energy-difference operators and channel count (lines 281-296). -/
def guess_step (inp : SolveInputs) (freq : ℚ) (ops : List operator_spec) :
    List operator_spec :=
  guess_ops inp.cfg.read (nden inp) (ediff_alph inp) (ediff_beta inp) freq ops

/-- The checkpoint read loop with the orchestrator's own coefficient blocks
and channel count (lines 233-265). -/
def read_step (inp : SolveInputs) (ops : List operator_spec) : List operator_spec :=
  read_ops inp.cfg.read (nden inp) inp.diskMo inp.diskAo
    (C_occ_alph inp) (C_virt_alph inp) (C_occ_beta inp) (C_virt_beta inp) ops

/-- All per-frequency cubes of one orchestrator call, in input frequency
order. -/
def freq_loop (inp : SolveInputs) : List (List Mat) :=
  freq_loop_core inp.solverRun inp.cfg.read inp.cfg.print_level (nden inp)
    inp.cfg.mask_form_results_mo (indices_mo inp) (ediff_alph inp) (ediff_beta inp)
    (operators_prepared inp) inp.omega

/-- `results_alph` — slice 0 of every per-frequency cube (lines 48, 337). -/
def results_alph (inp : SolveInputs) : List Mat :=
  (freq_loop inp).map (fun c => c.getD 0 [])

/-- `results_beta` — slice 1 of every per-frequency cube (lines 49-51, 339). -/
def results_beta (inp : SolveInputs) : List Mat :=
  (freq_loop inp).map (fun c => c.getD 1 [])

/-- The spin-channel combination `2 * (results_alph + results_beta)` applied
slice by slice (line 350). -/
def combine_channels (A B : List Mat) : List Mat :=
  List.zipWith (fun a b => mat_scale 2 (mat_add a b)) A B

/-- The final results tensor (lines 346-351): the alpha tensor for one
channel, `2 * (alpha + beta)` for two. -/
def final_results (inp : SolveInputs) : List Mat :=
  if nden inp = 1 then results_alph inp
  else combine_channels (results_alph inp) (results_beta inp)

/-- The full orchestrator `solve_linear_response` (lines 11-361): run the
input checks in program order; on success return the final results tensor
and the list of energy-difference checkpoint files written. -/
def solve_linear_response (inp : SolveInputs) : Except SolveErr SolveOutput :=
  match validate inp with
  | some e => .error e
  | none => .ok { results := final_results inp, saved_ediff_files := saved_ediff_files inp }

/-- Modelled from the spec: the solver interface contract — the external
iterative solver "mutates each operator's response vectors in place", leaving
every other field of the operator untouched.  `stripRsp` forgets exactly the
response-vector state of an operator; two batches with equal `stripRsp`
images present the same problem to the solver. -/
def stripRsp (op : operator_spec) : operator_spec :=
  { op with rspvecs_alph := [], rspvecs_beta := [] }

/-- Shorthand for a two-channel operator whose beta gradient duplicates its
alpha gradient, as produced by `form_rhs` on identical coefficient blocks. -/
def chanDup (op : operator_spec) : operator_spec :=
  { op with rhs_beta := op.rhs_alph }

/-- Modelled from the spec: a channel-local converged solve — the solver
replaces each operator's response vectors by a function `g` of that same
channel's gradient vectors and the frequency alone (the "independent
converged solution" of the spec's frequency-loop contract). -/
def setg (g : List Vec → ℚ → List Vec) (freq : ℚ) (op : operator_spec) : operator_spec :=
  { op with rspvecs_alph := g op.rhs_alph freq, rspvecs_beta := g op.rhs_beta freq }

/-- A concrete channel-local solution map used by witnesses: scales every
gradient component by `1 + freq`. -/
def gsol : List Vec → ℚ → List Vec :=
  fun rhs freq => rhs.map (fun v => v.map (fun x => (1 + freq) * x))

/-- A solver that forgets the incoming response vectors and then applies a
channel-local solution map — it satisfies both determinism contracts of the
spec's solver interface. -/
def solver_strip_then (g : List Vec → ℚ → List Vec) :
    List operator_spec → ℚ → List operator_spec :=
  fun ops freq => (ops.map stripRsp).map (setg g freq)

/-- A solver that applies a channel-local solution map to each operator. -/
def solver_chanwise (g : List Vec → ℚ → List Vec) :
    List operator_spec → ℚ → List operator_spec :=
  fun ops freq => ops.map (setg g freq)

/-! ### Concrete inputs used by the witnesses and counterexamples -/

/-- A one-component property operator on a two-orbital system. -/
def op0 : operator_spec :=
  { operator_label := "op", do_response := true, integrals_ao := [[[0, 1], [1, 0]]] }

/-- The default configuration: read mode 0, no saving, no masking, pooled
fragments, silent. -/
def cfg0 : configurable := {}

/-- A minimal single-channel call: two basis functions, one occupied and one
virtual orbital, orthonormal coefficients, one frequency, one operator, an
identity solver, an empty disk. -/
def inp0 : SolveInputs :=
  { solverRun := fun ops _ => ops
    diskMo := fun _ => none
    diskAo := fun _ => none
    pinv := fun M => M
    C := [[[1, 0], [0, 1]]]
    fragment_occupations := [[0, 2, 1, 1]]
    occupations := [1, 1, 1, 1]
    F := [[[1, 0], [0, 3]]]
    S := [[1, 0], [0, 1]]
    omega := [0]
    operators := [op0]
    cfg := cfg0 }

/-- The output of `solve_linear_response` on `inp0`: the energy difference is
`2`, the gradient is `1`, so the uncoupled (and, under the identity solver,
final) response value is `1/2`. -/
def out0 : SolveOutput := { results := [[[(1 : ℚ)/2]]], saved_ediff_files := [] }

/-- `inp0` with an empty frequency list. -/
def inp3 : SolveInputs := { inp0 with omega := [] }

/-- `inp0` in read mode 1 with one MO-basis response-vector file on disk. -/
def inp4 : SolveInputs :=
  { inp0 with
    cfg := { cfg0 with read := 1 }
    diskMo := fun s => if s = "rspvecs_op_mo_alph.dat" then some [[3]] else none }

/-- `inp0` in read mode 1 with a filename prefix configured and a response
file stored under the PREFIXED name only. -/
def inp6 : SolveInputs :=
  { inp0 with
    cfg := { cfg0 with read := 1, prefix_str := some "pre_" }
    diskMo := fun s => if s = "pre_rspvecs_op_mo_alph.dat" then some [[7]] else none }

/-- `inp0` with checkpoint saving on and a filename prefix configured. -/
def inpW6 : SolveInputs :=
  { inp0 with cfg := { cfg0 with save := 1, prefix_str := some "p_" } }

/-- The output of `solve_linear_response` on `inpW6`. -/
def outW6 : SolveOutput :=
  { results := [[[(1 : ℚ)/2]]]
    saved_ediff_files := [ediff_save_filename "p_" "alph"] }

/-- `inp0` with canonical orthogonalization requested (and the identity map
standing in for `arma::pinv`). -/
def inp8 : SolveInputs :=
  { inp0 with cfg := { cfg0 with do_orthogonalization_canonical := true } }

/-- A two-frequency run of `inp0` under a guess-independent solver. -/
def inp5 : SolveInputs :=
  { inp0 with omega := [0, 1], solverRun := solver_strip_then gsol }

/-- A two-channel call with identical alpha and beta blocks, occupations and
fragment data, driven by a channel-local solver. -/
def inp7 : SolveInputs :=
  { inp0 with
    C := [[[1, 0], [0, 1]], [[1, 0], [0, 1]]]
    F := [[[1, 0], [0, 3]], [[1, 0], [0, 3]]]
    solverRun := solver_chanwise gsol }

/-- `inp` with the pseudo-inverse primitive replaced by `p` and the
canonical-orthogonalization flag set to `b`; every other input unchanged. -/
def with_canon (inp : SolveInputs) (p : Mat → Mat) (b : Bool) : SolveInputs :=
  { inp with pinv := p, cfg := { inp.cfg with do_orthogonalization_canonical := b } }

/-- `inp` with the `print_level` configuration key set to `p`; every other
input unchanged. -/
def with_print_level (inp : SolveInputs) (p : Int) : SolveInputs :=
  { inp with cfg := { inp.cfg with print_level := p } }

/-- `inp` with the optional filename-prefix key set to `p`; every other input
unchanged. -/
def with_prefix_str (inp : SolveInputs) (p : Option String) : SolveInputs :=
  { inp with cfg := { inp.cfg with prefix_str := p } }

/-- `inp` with the frequency list replaced by `ws`; every other input
unchanged. -/
def with_omega (inp : SolveInputs) (ws : List ℚ) : SolveInputs :=
  { inp with omega := ws }

/-- The single-channel call corresponding to a two-channel input: keep only
the alpha coefficient and Fock slices; every other input unchanged. -/
def single_channel (inp : SolveInputs) : SolveInputs :=
  { inp with C := [inp.C.getD 0 []], F := [inp.F.getD 0 []] }

/-- `op` with its alpha response vectors replaced. -/
def set_rsp_alph (op : operator_spec) (v : List Vec) : operator_spec :=
  { op with rspvecs_alph := v }

/-- `op` with both channels' response vectors replaced. -/
def set_rsp_both (op : operator_spec) (va vb : List Vec) : operator_spec :=
  { op with rspvecs_alph := va, rspvecs_beta := vb }

/-! ### Helper lemmas -/

/-- Reaching the closed-shell check means both `norb` checks passed, which
forces equal rotation-space sizes for equal occupation counts. -/
theorem closed_shell_cond_false (inp : SolveInputs)
    (h5 : norb inp = nocc_alph inp + nvirt_alph inp)
    (h6 : norb inp = nocc_beta inp + nvirt_beta inp) :
    ¬(nocc_alph inp = nocc_beta inp ∧ nov_alph inp ≠ nov_beta inp) := by
  rintro ⟨he, hne⟩
  apply hne
  have hv : nvirt_alph inp = nvirt_beta inp := by omega
  unfold nov_alph nov_beta
  rw [he, hv]

theorem validate_not_closed (inp : SolveInputs) :
    validate inp ≠ some SolveErr.assertClosedShell := by
  unfold validate
  intro hcontr
  split_ifs at hcontr with h1 h2 h3 h4 h5 h6 h7
  all_goals
    first
      | exact Option.noConfusion hcontr
      | exact SolveErr.noConfusion (Option.some.inj hcontr)
      | exact closed_shell_cond_false inp (not_ne_iff.mp h5) (not_ne_iff.mp h6) h7

/-- One frequency-loop iteration never depends on the `print_level`
argument: the uncoupled cube built inside the diagnostic branch is shadowed
by the post-solver `form_results` assignment. -/
theorem freq_step_core_pl (slv : List operator_spec → ℚ → List operator_spec)
    (read p q : Int) (nd : Nat) (mask : Bool) (idx : List (List Nat)) (eda edb : Mat)
    (ops : List operator_spec) (freq : ℚ) :
    freq_step_core slv read p nd mask idx eda edb ops freq =
      freq_step_core slv read q nd mask idx eda edb ops freq := rfl

theorem freq_loop_core_pl (slv : List operator_spec → ℚ → List operator_spec)
    (read p q : Int) (nd : Nat) (mask : Bool) (idx : List (List Nat)) (eda edb : Mat) :
    ∀ (ws : List ℚ) (ops : List operator_spec),
      freq_loop_core slv read p nd mask idx eda edb ops ws =
        freq_loop_core slv read q nd mask idx eda edb ops ws := by
  intro ws
  induction ws with
  | nil => intro ops; rfl
  | cons w rest ih =>
    intro ops
    simp only [freq_loop_core]
    rw [freq_step_core_pl slv read p q nd mask idx eda edb ops w]
    rw [ih]

/-! ### Claims -/

/-- C1: the claim reads "for `_frgm_response_idx > 0` the alpha restricted
index set is built from the alpha per-fragment occupied counts together with
the alpha per-fragment virtual counts `norb_fragment - nocc_fragment_alpha`".
On fragment table `[[0,3,2,1],[1,3,1,1]]` (columns: id, norb, nocc_alph,
nocc_beta) with fragment 1 selected, the code— which at line 159 passes the
BETA virtual counts `nvirt_frgm_beta = [2,2]` for the alpha channel — yields
`[0..7]`, while the alpha virtual counts `nvirt_frgm_alph = [1,2]` required
by the claim yield `[0..5]`. -/
theorem C1_theorem :
    indices_mo_alph_sel [[0, 3, 2, 1], [1, 3, 1, 1]] 1 = [0, 1, 2, 3, 4, 5, 6, 7]
    ∧ indices_mo_alph_sel [[0, 3, 2, 1], [1, 3, 1, 1]] 1 ≠
        (make_indices_mo_restricted_local_occ_all_virt [2, 1] [1, 2]).getD 0 []
    ∧ (make_indices_mo_restricted_local_occ_all_virt [2, 1] [1, 2]).getD 0 [] =
        [0, 1, 2, 3, 4, 5] := by
  refine ⟨by decide, by decide, by decide⟩

/-- C3: with a well-formed occupation vector, an empty frequency list or an
empty operator list makes `solve_linear_response` abort with one of the two
configuration errors before any computation, returning no results tensor. -/
theorem C3_theorem (inp : SolveInputs) (h4 : inp.occupations.length = 4)
    (h : inp.omega = [] ∨ inp.operators = []) :
    solve_linear_response inp = .error (SolveErr.config "Supply one or more frequencies.")
    ∨ solve_linear_response inp = .error (SolveErr.config "Supply one or more operators.") := by
  by_cases homega : inp.omega = []
  · left
    unfold solve_linear_response validate
    simp [h4, homega]
  · right
    have hops : inp.operators = [] := by
      rcases h with h | h
      · exact absurd h homega
      · exact h
    unfold solve_linear_response validate
    simp [h4, homega, hops]

/-- Witness for C3 at the concrete empty-frequency input `inp3`. -/
theorem C3_witness :
    solve_linear_response inp3 = .error (SolveErr.config "Supply one or more frequencies.")
    ∨ solve_linear_response inp3 = .error (SolveErr.config "Supply one or more operators.") :=
  C3_theorem inp3 (by decide) (Or.inl rfl)

/-- C9: the closed-shell symmetry assertion of `solve_linear_response`
(lines 61-62) can never fire: whenever both `norb = nocc_s + nvirt_s` checks
have passed and `nocc_alph = nocc_beta`, the rotation-space sizes
`nocc_s * nvirt_s` agree, so no input makes the orchestrator abort with
`assertClosedShell`. -/
theorem C9_theorem (inp : SolveInputs) :
    solve_linear_response inp ≠ .error SolveErr.assertClosedShell := by
  unfold solve_linear_response
  cases hv : validate inp with
  | none => simp
  | some e =>
    intro hcontr
    apply validate_not_closed inp
    rw [hv]
    simp only [Except.error.injEq] at hcontr
    rw [hcontr]

/-- Witness for C9 at the concrete input `inp0`. -/
theorem C9_witness : solve_linear_response inp0 ≠ .error SolveErr.assertClosedShell :=
  C9_theorem inp0

/-- C8 counterexample: the claim reads "the energy-difference operators built
with the flag set consume those pseudo-inverses".  On `inp8` (flag set) the
entire orchestrator output — the energy-difference operators included — is
unchanged when the pseudo-inverse primitive is replaced by one returning a
different value, so the pseudo-inverses are computed but not consumed. -/
theorem C8_counterexample :
    solve_linear_response inp8 = solve_linear_response { inp8 with pinv := fun _ => [] }
    ∧ ediff_alph inp8 = ediff_alph { inp8 with pinv := fun _ => [] }
    ∧ S_inv inp8 ≠ S_inv { inp8 with pinv := fun _ => [] }
    ∧ S_inv { inp8 with pinv := fun _ => [] } = [] := by
  refine ⟨rfl, rfl, by decide, rfl⟩

/-- C8 (amended): when `_do_orthogonalization_canonical` is set, the
pseudo-inverses of `S` and of each MO-basis overlap are computed
(`S_inv`, `sigma_inv_alph`, `sigma_inv_beta`), but they are NOT consumed by
the subsequent transforms or the energy-difference construction: the
energy-difference operators and the whole orchestrator output are identical
for every value of the flag and of the pseudo-inverse primitive. -/
theorem C8_theorem (inp : SolveInputs) (p : Mat → Mat) (b : Bool) :
    S_inv (with_canon inp p b) = (if b then p inp.S else [])
    ∧ sigma_inv_alph (with_canon inp p b) = (if b then p (sigma_alph inp) else [])
    ∧ sigma_inv_beta (with_canon inp p b) = (if b then p (sigma_beta inp) else [])
    ∧ ediff_alph (with_canon inp p b) = ediff_alph inp
    ∧ ediff_beta (with_canon inp p b) = ediff_beta inp
    ∧ solve_linear_response (with_canon inp p b) = solve_linear_response inp :=
  ⟨rfl, rfl, rfl, rfl, rfl, rfl⟩

/-- C6 counterexample: the claim reads "every checkpoint file the
orchestrator consumes is named by concatenating the caller-supplied prefix
with the fixed tag, operator label, basis tag and spin tag".  On `inp6` the
prefix is `"pre_"` and a response-vector file exists under the
prefix-concatenated name, yet the read loop consults the unprefixed name
(lines 240, 244, 253, 257), so the stored vectors are not picked up. -/
theorem C6_counterexample :
    ((operators_prepared inp6).headD {}).rspvecs_alph = []
    ∧ (inp6.diskMo (inp6.cfg.prefix_str.getD "" ++ "rspvecs_" ++ "op" ++ "_" ++ "mo" ++
        "_" ++ "alph" ++ ".dat")).isSome = true
    ∧ rspvec_read_filename "op" "mo" "alph" ≠
        inp6.cfg.prefix_str.getD "" ++ "rspvecs_" ++ "op" ++ "_" ++ "mo" ++ "_" ++
          "alph" ++ ".dat" := by
  refine ⟨by decide, by decide, by decide⟩

/-- C2: whenever `solve_linear_response` succeeds, the returned results
tensor is the alpha per-frequency tensor for a one-slice coefficient cube and
`2 * (alpha + beta)` slice by slice for a two-slice cube (lines 346-351). -/
theorem C2_theorem (inp : SolveInputs) (out : SolveOutput)
    (h : solve_linear_response inp = .ok out) :
    (nden inp = 1 → out.results = results_alph inp)
    ∧ (nden inp = 2 → out.results = combine_channels (results_alph inp) (results_beta inp)) := by
  unfold solve_linear_response at h
  cases hv : validate inp with
  | some e => rw [hv] at h; exact absurd h (by simp)
  | none =>
    rw [hv] at h
    simp only [Except.ok.injEq] at h
    constructor
    · intro hnd
      rw [← h]
      simp [final_results, hnd]
    · intro hnd
      rw [← h]
      simp [final_results, hnd]

/-- Witness for C2: the concrete run `inp0` succeeds with output `out0`. -/
theorem C2_witness :
    (nden inp0 = 1 → out0.results = results_alph inp0)
    ∧ (nden inp0 = 2 → out0.results = combine_channels (results_alph inp0) (results_beta inp0)) :=
  C2_theorem inp0 out0 (by
    norm_num [solve_linear_response, validate, inp0, op0, cfg0, out0, nden, norb, nocc_alph,
      nvirt_alph, nocc_beta, nvirt_beta, nov_alph, nov_beta, final_results, results_alph,
      results_beta, combine_channels, freq_loop, freq_loop_core, freq_step_core,
      operators_prepared, read_ops, read_op, rhs_step_core, guess_ops, guess_op,
      form_results_sel, form_results, results_slice, dot_restricted, vec_dot, guessVec,
      ediff_alph, ediff_beta, form_ediff_terms, make_masked_mat, indices_mo, indices_mo_alph,
      indices_mo_beta, indices_mo_alph_sel, indices_mo_beta_sel, make_indices_mo_restricted,
      make_indices_mo_restricted_local_occ_all_virt, sigma_alph, sigma_beta, F_mo_alph,
      F_mo_beta, C_occ_alph, C_virt_alph, C_occ_beta, C_virt_beta, cols_range, mat_mul,
      mat_transpose, mat_entry, n_cols, mat_scale, mat_add, one_electron_mn_mat_to_ia_vec,
      one_electron_mn_mats_to_ia_vecs, saved_ediff_files, ediff_save_filename,
      rspvec_read_filename, List.range_succ])

/-- C6 (amended): the energy-difference files written with `save > 0` are
named caller-supplied prefix (default empty) ++ fixed tag ++ spin tag ++
fixed suffix, with no operator label or basis tag; the response-vector files
consumed in read modes 1 and 2 are named fixed tag ++ operator label ++
basis tag ++ spin tag ++ fixed suffix WITHOUT the caller-supplied prefix, so
the operator batch read from disk is the same for every prefix value. -/
theorem C6_theorem (inp : SolveInputs) (out : SolveOutput)
    (h : solve_linear_response inp = .ok out) :
    out.saved_ediff_files =
      (if inp.cfg.save > 0 then
        (inp.cfg.prefix_str.getD "" ++ "ediff_" ++ "alph" ++ ".dat") ::
          (if nden inp = 2 then
            [inp.cfg.prefix_str.getD "" ++ "ediff_" ++ "beta" ++ ".dat"]
          else [])
      else [])
    ∧ (∀ label basis spin : String,
        rspvec_read_filename label basis spin =
          "rspvecs_" ++ label ++ "_" ++ basis ++ "_" ++ spin ++ ".dat")
    ∧ (∀ p1 p2 : Option String,
        operators_prepared (with_prefix_str inp p1) = operators_prepared (with_prefix_str inp p2)) := by
  refine ⟨?_, fun label basis spin => rfl, fun p1 p2 => rfl⟩
  unfold solve_linear_response at h
  cases hv : validate inp with
  | some e => rw [hv] at h; exact absurd h (by simp)
  | none =>
    rw [hv] at h
    simp only [Except.ok.injEq] at h
    rw [← h]
    rfl

/-- Witness for C6: the concrete run `inpW6` (prefix `"p_"`, `save = 1`)
succeeds with output `outW6`. -/
theorem C6_witness :
    outW6.saved_ediff_files =
      (if inpW6.cfg.save > 0 then
        (inpW6.cfg.prefix_str.getD "" ++ "ediff_" ++ "alph" ++ ".dat") ::
          (if nden inpW6 = 2 then
            [inpW6.cfg.prefix_str.getD "" ++ "ediff_" ++ "beta" ++ ".dat"]
          else [])
      else [])
    ∧ (∀ label basis spin : String,
        rspvec_read_filename label basis spin =
          "rspvecs_" ++ label ++ "_" ++ basis ++ "_" ++ spin ++ ".dat")
    ∧ (∀ p1 p2 : Option String,
        operators_prepared (with_prefix_str inpW6 p1) =
          operators_prepared (with_prefix_str inpW6 p2)) :=
  C6_theorem inpW6 outW6 (by
    norm_num [solve_linear_response, validate, inpW6, inp0, op0, cfg0, outW6, nden, norb,
      nocc_alph, nvirt_alph, nocc_beta, nvirt_beta, nov_alph, nov_beta, final_results,
      results_alph, results_beta, combine_channels, freq_loop, freq_loop_core, freq_step_core,
      operators_prepared, read_ops, read_op, rhs_step_core, guess_ops, guess_op,
      form_results_sel, form_results, results_slice, dot_restricted, vec_dot, guessVec,
      ediff_alph, ediff_beta, form_ediff_terms, make_masked_mat, indices_mo, indices_mo_alph,
      indices_mo_beta, indices_mo_alph_sel, indices_mo_beta_sel, make_indices_mo_restricted,
      make_indices_mo_restricted_local_occ_all_virt, sigma_alph, sigma_beta, F_mo_alph,
      F_mo_beta, C_occ_alph, C_virt_alph, C_occ_beta, C_virt_beta, cols_range, mat_mul,
      mat_transpose, mat_entry, n_cols, mat_scale, mat_add, one_electron_mn_mat_to_ia_vec,
      one_electron_mn_mats_to_ia_vecs, saved_ediff_files, ediff_save_filename,
      rspvec_read_filename, List.range_succ])

/-- C4: the three checkpoint read modes, selected by the single `read` key of
one call (hence mutually exclusive), behave as follows for every operator
taking part in the response solve.  Mode 0: the read loop leaves the operator
untouched and, at each frequency, the guess block forms the uncoupled guess
`gradient / (ediff - frequency)` per spin channel.  Mode 1: the read loop
loads the response vectors from disk directly in the MO basis.  Mode 2: it
loads them in the AO basis and transforms them with the occupied/virtual
coefficient blocks.  In modes 1 and 2 the guess block never forms the
uncoupled guess — the operators (holding the loaded vectors) pass to the
solver unchanged. -/
theorem C4_theorem (inp : SolveInputs) (op : operator_spec) (freq : ℚ)
    (hop : op.do_response = true) :
    (inp.cfg.read = 0 →
        read_step inp [op] = [op]
        ∧ guess_step inp freq [op] =
            [if nden inp = 2 then
              set_rsp_both op (op.rhs_alph.map (guessVec (ediff_alph inp) freq))
                (op.rhs_beta.map (guessVec (ediff_beta inp) freq))
            else set_rsp_alph op (op.rhs_alph.map (guessVec (ediff_alph inp) freq))])
    ∧ (inp.cfg.read = 1 →
        read_step inp [op] =
            [if nden inp = 2 then
              set_rsp_both op
                ((inp.diskMo (rspvec_read_filename op.operator_label "mo" "alph")).getD [])
                ((inp.diskMo (rspvec_read_filename op.operator_label "mo" "beta")).getD [])
            else
              set_rsp_alph op
                ((inp.diskMo (rspvec_read_filename op.operator_label "mo" "alph")).getD [])]
        ∧ guess_step inp freq [op] = [op])
    ∧ (inp.cfg.read = 2 →
        read_step inp [op] =
            [if nden inp = 2 then
              set_rsp_both op
                (one_electron_mn_mats_to_ia_vecs
                  ((inp.diskAo (rspvec_read_filename op.operator_label "ao" "alph")).getD [])
                  (C_occ_alph inp) (C_virt_alph inp))
                (one_electron_mn_mats_to_ia_vecs
                  ((inp.diskAo (rspvec_read_filename op.operator_label "ao" "beta")).getD [])
                  (C_occ_beta inp) (C_virt_beta inp))
            else
              set_rsp_alph op
                (one_electron_mn_mats_to_ia_vecs
                  ((inp.diskAo (rspvec_read_filename op.operator_label "ao" "alph")).getD [])
                  (C_occ_alph inp) (C_virt_alph inp))]
        ∧ guess_step inp freq [op] = [op]) := by
  obtain ⟨label, d, ints, ra, rb, va, vb⟩ := op
  simp only at hop
  subst hop
  refine ⟨fun h => ⟨?_, ?_⟩, fun h => ⟨?_, ?_⟩, fun h => ⟨?_, ?_⟩⟩
  · simp +decide [read_step, read_ops, read_op, h]
  · simp +decide [guess_step, guess_ops, guess_op, h, set_rsp_alph, set_rsp_both]
  · simp +decide [read_step, read_ops, read_op, h, set_rsp_alph, set_rsp_both]
  · simp +decide [guess_step, guess_ops, h]
  · simp +decide [read_step, read_ops, read_op, h, set_rsp_alph, set_rsp_both]
  · simp +decide [guess_step, guess_ops, h]

/-- Witness for C4 at the concrete read-mode-1 input `inp4` with operator
`op0` and frequency 0. -/
theorem C4_witness :
    (inp4.cfg.read = 0 →
        read_step inp4 [op0] = [op0]
        ∧ guess_step inp4 0 [op0] =
            [if nden inp4 = 2 then
              set_rsp_both op0 (op0.rhs_alph.map (guessVec (ediff_alph inp4) 0))
                (op0.rhs_beta.map (guessVec (ediff_beta inp4) 0))
            else set_rsp_alph op0 (op0.rhs_alph.map (guessVec (ediff_alph inp4) 0))])
    ∧ (inp4.cfg.read = 1 →
        read_step inp4 [op0] =
            [if nden inp4 = 2 then
              set_rsp_both op0
                ((inp4.diskMo (rspvec_read_filename op0.operator_label "mo" "alph")).getD [])
                ((inp4.diskMo (rspvec_read_filename op0.operator_label "mo" "beta")).getD [])
            else
              set_rsp_alph op0
                ((inp4.diskMo (rspvec_read_filename op0.operator_label "mo" "alph")).getD [])]
        ∧ guess_step inp4 0 [op0] = [op0])
    ∧ (inp4.cfg.read = 2 →
        read_step inp4 [op0] =
            [if nden inp4 = 2 then
              set_rsp_both op0
                (one_electron_mn_mats_to_ia_vecs
                  ((inp4.diskAo (rspvec_read_filename op0.operator_label "ao" "alph")).getD [])
                  (C_occ_alph inp4) (C_virt_alph inp4))
                (one_electron_mn_mats_to_ia_vecs
                  ((inp4.diskAo (rspvec_read_filename op0.operator_label "ao" "beta")).getD [])
                  (C_occ_beta inp4) (C_virt_beta inp4))
            else
              set_rsp_alph op0
                (one_electron_mn_mats_to_ia_vecs
                  ((inp4.diskAo (rspvec_read_filename op0.operator_label "ao" "alph")).getD [])
                  (C_occ_alph inp4) (C_virt_alph inp4))]
        ∧ guess_step inp4 0 [op0] = [op0]) :=
  C4_theorem inp4 op0 0 rfl

/-- C10: the final output of `solve_linear_response` is identical for every
value of the `print_level` key — in particular the in-place doubling of the
per-frequency cube inside the diagnostic branch (lines 306-309) is dead for
the returned tensor, because the post-solver `form_results` call
(lines 333-336) assigns the cube afresh. -/
theorem C10_theorem (inp : SolveInputs) (p q : Int) :
    solve_linear_response (with_print_level inp p) =
      solve_linear_response (with_print_level inp q) := by
  have hval : validate (with_print_level inp p) = validate (with_print_level inp q) := rfl
  have hloop : freq_loop (with_print_level inp p) = freq_loop (with_print_level inp q) := by
    show freq_loop_core inp.solverRun inp.cfg.read p (nden inp) inp.cfg.mask_form_results_mo
        (indices_mo inp) (ediff_alph inp) (ediff_beta inp) (operators_prepared inp) inp.omega =
      freq_loop_core inp.solverRun inp.cfg.read q (nden inp) inp.cfg.mask_form_results_mo
        (indices_mo inp) (ediff_alph inp) (ediff_beta inp) (operators_prepared inp) inp.omega
    exact freq_loop_core_pl inp.solverRun inp.cfg.read p q (nden inp)
      inp.cfg.mask_form_results_mo (indices_mo inp) (ediff_alph inp) (ediff_beta inp)
      inp.omega (operators_prepared inp)
  have hnd : nden (with_print_level inp p) = nden (with_print_level inp q) := rfl
  have hres : final_results (with_print_level inp p) = final_results (with_print_level inp q) := by
    unfold final_results results_alph results_beta combine_channels
    rw [hloop, hnd]
  have hsaved : saved_ediff_files (with_print_level inp p) =
      saved_ediff_files (with_print_level inp q) := rfl
  unfold solve_linear_response
  rw [hval, hres, hsaved]

/-- Forming a guess only rewrites the response-vector fields. -/
theorem strip_guess_op (nd : Nat) (eda edb : Mat) (freq : ℚ) (op : operator_spec) :
    stripRsp (guess_op nd eda edb freq op) = stripRsp op := by
  obtain ⟨label, d, ints, ra, rb, va, vb⟩ := op
  simp only [guess_op, stripRsp]
  split <;> rfl

theorem map_strip_congr (f : operator_spec → operator_spec)
    (hf : ∀ op, stripRsp (f op) = stripRsp op) :
    ∀ ops : List operator_spec, (ops.map f).map stripRsp = ops.map stripRsp := by
  intro ops
  induction ops with
  | nil => rfl
  | cons o t ih => simp only [List.map_cons, hf, ih]

theorem guess_ops_strip (read : Int) (nd : Nat) (eda edb : Mat) (freq : ℚ)
    (ops : List operator_spec) :
    (guess_ops read nd eda edb freq ops).map stripRsp = ops.map stripRsp := by
  unfold guess_ops
  split
  · exact map_strip_congr _ (strip_guess_op nd eda edb freq) ops
  · rfl

/-- One loop iteration is determined by the solver-visible data of the batch,
for a solver whose output is determined by that data. -/
theorem freq_step_core_det (slv : List operator_spec → ℚ → List operator_spec)
    (Hdet : ∀ o1 o2 w, o1.map stripRsp = o2.map stripRsp → slv o1 w = slv o2 w)
    (read pl : Int) (nd : Nat) (mask : Bool) (idx : List (List Nat)) (eda edb : Mat)
    (o1 o2 : List operator_spec) (freq : ℚ)
    (h : o1.map stripRsp = o2.map stripRsp) :
    freq_step_core slv read pl nd mask idx eda edb o1 freq =
      freq_step_core slv read pl nd mask idx eda edb o2 freq := by
  have hg : (guess_ops read nd eda edb freq o1).map stripRsp =
      (guess_ops read nd eda edb freq o2).map stripRsp := by
    rw [guess_ops_strip, guess_ops_strip, h]
  have hs := Hdet _ _ freq hg
  simp only [freq_step_core]
  rw [hs]

theorem freq_loop_core_det (slv : List operator_spec → ℚ → List operator_spec)
    (Hdet : ∀ o1 o2 w, o1.map stripRsp = o2.map stripRsp → slv o1 w = slv o2 w)
    (read pl : Int) (nd : Nat) (mask : Bool) (idx : List (List Nat)) (eda edb : Mat) :
    ∀ (ws : List ℚ) (o1 o2 : List operator_spec),
      o1.map stripRsp = o2.map stripRsp →
      freq_loop_core slv read pl nd mask idx eda edb o1 ws =
        freq_loop_core slv read pl nd mask idx eda edb o2 ws := by
  intro ws
  cases ws with
  | nil => intro o1 o2 h; rfl
  | cons w rest =>
    intro o1 o2 h
    simp only [freq_loop_core]
    rw [freq_step_core_det slv Hdet read pl nd mask idx eda edb o1 o2 w h]

/-- A solver that only rewrites response vectors leaves the solver-visible
data of the batch unchanged across one loop iteration. -/
theorem freq_step_core_strip (slv : List operator_spec → ℚ → List operator_spec)
    (Hstrip : ∀ ops w, (slv ops w).map stripRsp = ops.map stripRsp)
    (read pl : Int) (nd : Nat) (mask : Bool) (idx : List (List Nat)) (eda edb : Mat)
    (ops : List operator_spec) (freq : ℚ) :
    (freq_step_core slv read pl nd mask idx eda edb ops freq).1.map stripRsp =
      ops.map stripRsp := by
  simp only [freq_step_core]
  rw [Hstrip, guess_ops_strip]

theorem freq_loop_core_length (slv : List operator_spec → ℚ → List operator_spec)
    (read pl : Int) (nd : Nat) (mask : Bool) (idx : List (List Nat)) (eda edb : Mat) :
    ∀ (ws : List ℚ) (ops : List operator_spec),
      (freq_loop_core slv read pl nd mask idx eda edb ops ws).length = ws.length := by
  intro ws
  induction ws with
  | nil => intro ops; rfl
  | cons w rest ih => intro ops; simp only [freq_loop_core, List.length_cons, ih]

/-- The cube produced for the f-th frequency equals the cube a singleton run
at that frequency produces, whenever the solver is determined by the
solver-visible data and only rewrites response vectors. -/
theorem freq_loop_core_nth (slv : List operator_spec → ℚ → List operator_spec)
    (Hdet : ∀ o1 o2 w, o1.map stripRsp = o2.map stripRsp → slv o1 w = slv o2 w)
    (Hstrip : ∀ ops w, (slv ops w).map stripRsp = ops.map stripRsp)
    (read pl : Int) (nd : Nat) (mask : Bool) (idx : List (List Nat)) (eda edb : Mat) :
    ∀ (ws : List ℚ) (ops : List operator_spec) (f : Nat), f < ws.length →
      (freq_loop_core slv read pl nd mask idx eda edb ops ws).getD f [] =
        (freq_loop_core slv read pl nd mask idx eda edb ops [ws.getD f 0]).getD 0 [] := by
  intro ws
  induction ws with
  | nil => intro ops f hf; simp at hf
  | cons w rest ih =>
    intro ops f hf
    cases f with
    | zero => rfl
    | succ f' =>
      have hf' : f' < rest.length := by simpa using hf
      simp only [freq_loop_core, List.getD_cons_succ]
      rw [ih _ f' hf']
      rw [freq_loop_core_det slv Hdet read pl nd mask idx eda edb [rest.getD f' 0] _ _
        (freq_step_core_strip slv Hstrip read pl nd mask idx eda edb ops w)]
      rfl

theorem getD_map_slice (s : Nat) :
    ∀ (l : List (List Mat)) (f : Nat), f < l.length →
      (l.map (fun c => c.getD s [])).getD f [] = (l.getD f []).getD s [] := by
  intro l
  induction l with
  | nil => intro f hf; simp at hf
  | cons c t ih =>
    intro f hf
    cases f with
    | zero => rfl
    | succ f' =>
      simp only [List.map_cons, List.getD_cons_succ]
      exact ih f' (by simpa using hf)

theorem getD_zipWith_mat (g : Mat → Mat → Mat) :
    ∀ (A B : List Mat) (f : Nat), f < A.length → f < B.length →
      (List.zipWith g A B).getD f [] = g (A.getD f []) (B.getD f []) := by
  intro A
  induction A with
  | nil => intro B f hf _; simp at hf
  | cons a t ih =>
    intro B f hfA hfB
    cases B with
    | nil => simp at hfB
    | cons b u =>
      cases f with
      | zero => rfl
      | succ f' =>
        simp only [List.zipWith_cons_cons, List.getD_cons_succ]
        exact ih u f' (by simpa using hfA) (by simpa using hfB)

/-- C5: for a solver whose converged output is a function of the
solver-visible operator data and the frequency alone (the spec's
"independent converged solution" contract: `Hdet`), and which only rewrites
response vectors (`Hstrip`), the final tensor's slice for the f-th frequency
equals slice 0 of an otherwise identical call whose frequency list is just
`[omega[f]]`, and the final tensor has one slice per input frequency, in
input order. -/
theorem C5_theorem (inp : SolveInputs)
    (Hdet : ∀ o1 o2 w, o1.map stripRsp = o2.map stripRsp →
        inp.solverRun o1 w = inp.solverRun o2 w)
    (Hstrip : ∀ ops w, (inp.solverRun ops w).map stripRsp = ops.map stripRsp)
    (f : Nat) (hf : f < inp.omega.length) :
    (final_results inp).getD f [] =
      (final_results (with_omega inp [inp.omega.getD f 0])).getD 0 []
    ∧ (final_results inp).length = inp.omega.length := by
  have hself : freq_loop inp =
      freq_loop_core inp.solverRun inp.cfg.read inp.cfg.print_level (nden inp)
        inp.cfg.mask_form_results_mo (indices_mo inp) (ediff_alph inp) (ediff_beta inp)
        (operators_prepared inp) inp.omega := rfl
  have hbridge : freq_loop (with_omega inp [inp.omega.getD f 0]) =
      freq_loop_core inp.solverRun inp.cfg.read inp.cfg.print_level (nden inp)
        inp.cfg.mask_form_results_mo (indices_mo inp) (ediff_alph inp) (ediff_beta inp)
        (operators_prepared inp) [inp.omega.getD f 0] := rfl
  have hndo : nden (with_omega inp [inp.omega.getD f 0]) = nden inp := rfl
  have hlenL : (freq_loop inp).length = inp.omega.length := by
    rw [hself]
    exact freq_loop_core_length inp.solverRun inp.cfg.read inp.cfg.print_level (nden inp)
      inp.cfg.mask_form_results_mo (indices_mo inp) (ediff_alph inp) (ediff_beta inp)
      inp.omega (operators_prepared inp)
  have hlen1 : (freq_loop (with_omega inp [inp.omega.getD f 0])).length = 1 := by
    rw [hbridge]
    exact freq_loop_core_length inp.solverRun inp.cfg.read inp.cfg.print_level (nden inp)
      inp.cfg.mask_form_results_mo (indices_mo inp) (ediff_alph inp) (ediff_beta inp)
      [inp.omega.getD f 0] (operators_prepared inp)
  have hnth : (freq_loop inp).getD f [] =
      (freq_loop (with_omega inp [inp.omega.getD f 0])).getD 0 [] := by
    rw [hself, hbridge]
    exact freq_loop_core_nth inp.solverRun Hdet Hstrip inp.cfg.read inp.cfg.print_level
      (nden inp) inp.cfg.mask_form_results_mo (indices_mo inp) (ediff_alph inp)
      (ediff_beta inp) inp.omega (operators_prepared inp) f hf
  unfold final_results results_alph results_beta combine_channels
  rw [hndo]
  by_cases hnd : nden inp = 1
  · rw [if_pos hnd, if_pos hnd]
    constructor
    · rw [getD_map_slice 0 _ f (by rw [hlenL]; exact hf), hnth,
        getD_map_slice 0 _ 0 (by rw [hlen1]; omega)]
    · rw [List.length_map, hlenL]
  · rw [if_neg hnd, if_neg hnd]
    constructor
    · rw [getD_zipWith_mat _ _ _ f (by rw [List.length_map, hlenL]; exact hf)
        (by rw [List.length_map, hlenL]; exact hf)]
      rw [getD_map_slice 0 _ f (by rw [hlenL]; exact hf)]
      rw [getD_map_slice 1 _ f (by rw [hlenL]; exact hf)]
      rw [hnth]
      rw [getD_zipWith_mat _ _ _ 0 (by rw [List.length_map, hlen1]; omega)
        (by rw [List.length_map, hlen1]; omega)]
      rw [getD_map_slice 0 _ 0 (by rw [hlen1]; omega)]
      rw [getD_map_slice 1 _ 0 (by rw [hlen1]; omega)]
    · rw [List.length_zipWith, List.length_map, List.length_map, hlenL, Nat.min_self]

/-- Replacing response vectors leaves the solver-visible data unchanged. -/
theorem strip_setg (g : List Vec → ℚ → List Vec) (w : ℚ) (op : operator_spec) :
    stripRsp (setg g w op) = stripRsp op := by
  obtain ⟨label, d, ints, ra, rb, va, vb⟩ := op
  rfl

theorem strip_strip (op : operator_spec) : stripRsp (stripRsp op) = stripRsp op := by
  obtain ⟨label, d, ints, ra, rb, va, vb⟩ := op
  rfl

theorem solver_strip_then_strips (g : List Vec → ℚ → List Vec) :
    ∀ (ops : List operator_spec) (w : ℚ),
      (solver_strip_then g ops w).map stripRsp = ops.map stripRsp := by
  intro ops w
  show ((ops.map stripRsp).map (setg g w)).map stripRsp = ops.map stripRsp
  rw [map_strip_congr _ (strip_setg g w)]
  exact map_strip_congr _ strip_strip ops

/-- Witness for C5 at the two-frequency input `inp5` with `f = 1`. -/
theorem C5_witness :
    (final_results inp5).getD 1 [] =
      (final_results (with_omega inp5 [inp5.omega.getD 1 0])).getD 0 []
    ∧ (final_results inp5).length = inp5.omega.length :=
  C5_theorem inp5
    (by
      intro o1 o2 w h
      show (o1.map stripRsp).map (setg gsol w) = (o2.map stripRsp).map (setg gsol w)
      rw [h])
    (fun ops w => solver_strip_then_strips gsol ops w)
    1 (by decide)

theorem list_map_ext {α β : Type _} (f h : α → β) (hfh : ∀ x, f x = h x) :
    ∀ l : List α, l.map f = l.map h := by
  intro l
  induction l with
  | nil => rfl
  | cons a t ih => simp only [List.map_cons, hfh, ih]

theorem rhs_alph_strip (op : operator_spec) : (stripRsp op).rhs_alph = op.rhs_alph := rfl

theorem rhs_beta_strip (op : operator_spec) : (stripRsp op).rhs_beta = op.rhs_beta := rfl

theorem rhs_alph_chanDup (op : operator_spec) : (chanDup op).rhs_alph = op.rhs_alph := rfl

theorem rhs_beta_chanDup (op : operator_spec) : (chanDup op).rhs_beta = op.rhs_alph := rfl

theorem rhs_alph_setg (g : List Vec → ℚ → List Vec) (w : ℚ) (op : operator_spec) :
    (setg g w op).rhs_alph = op.rhs_alph := rfl

theorem rhs_beta_setg (g : List Vec → ℚ → List Vec) (w : ℚ) (op : operator_spec) :
    (setg g w op).rhs_beta = op.rhs_beta := rfl

theorem rsp_alph_setg (g : List Vec → ℚ → List Vec) (w : ℚ) (op : operator_spec) :
    (setg g w op).rspvecs_alph = g op.rhs_alph w := rfl

theorem rsp_beta_setg (g : List Vec → ℚ → List Vec) (w : ℚ) (op : operator_spec) :
    (setg g w op).rspvecs_beta = g op.rhs_beta w := rfl

/-- From the channel-duplication relation, the alpha gradients agree. -/
theorem rel_rhs_alph (o1 o2 : List operator_spec)
    (h : o2.map stripRsp = (o1.map stripRsp).map chanDup) :
    o2.map (fun op => op.rhs_alph) = o1.map (fun op => op.rhs_alph) := by
  have hc := congrArg (List.map (fun op => op.rhs_alph)) h
  simp only [List.map_map, Function.comp] at hc
  simpa only [rhs_alph_strip, rhs_alph_chanDup] using hc

/-- From the channel-duplication relation, the beta gradients of the
two-channel batch equal the alpha gradients of the single-channel batch. -/
theorem rel_rhs_beta (o1 o2 : List operator_spec)
    (h : o2.map stripRsp = (o1.map stripRsp).map chanDup) :
    o2.map (fun op => op.rhs_beta) = o1.map (fun op => op.rhs_alph) := by
  have hc := congrArg (List.map (fun op => op.rhs_beta)) h
  simp only [List.map_map, Function.comp] at hc
  simpa only [rhs_beta_strip, rhs_beta_chanDup, rhs_alph_strip] using hc

/-- The four operator-field pools that the results assembler reads, after the
channel-local solver has run on two channel-duplicated batches. -/
theorem pools_chan_dup (g : List Vec → ℚ → List Vec) (w : ℚ) (o1 o2 : List operator_spec)
    (h : o2.map stripRsp = (o1.map stripRsp).map chanDup) :
    (o2.map (setg g w)).map (fun op => op.rhs_alph) =
        (o1.map (setg g w)).map (fun op => op.rhs_alph)
    ∧ (o2.map (setg g w)).map (fun op => op.rspvecs_alph) =
        (o1.map (setg g w)).map (fun op => op.rspvecs_alph)
    ∧ (o2.map (setg g w)).map (fun op => op.rhs_beta) =
        (o1.map (setg g w)).map (fun op => op.rhs_alph)
    ∧ (o2.map (setg g w)).map (fun op => op.rspvecs_beta) =
        (o1.map (setg g w)).map (fun op => op.rspvecs_alph) := by
  have ha := rel_rhs_alph o1 o2 h
  have hb := rel_rhs_beta o1 o2 h
  refine ⟨?_, ?_, ?_, ?_⟩
  · simpa only [List.map_map, Function.comp, rhs_alph_setg] using ha
  · simp only [List.map_map, Function.comp, rsp_alph_setg]
    have hc := congrArg (List.map (fun v => g v w)) ha
    simpa only [List.map_map, Function.comp] using hc
  · simpa only [List.map_map, Function.comp, rhs_beta_setg, rhs_alph_setg] using hb
  · simp only [List.map_map, Function.comp, rsp_beta_setg, rsp_alph_setg]
    have hc := congrArg (List.map (fun v => g v w)) hb
    simpa only [List.map_map, Function.comp] using hc

/-- The checkpoint read only rewrites response-vector fields. -/
theorem strip_read_op (read : Int) (nd : Nat) (dmo : String → Option (List Vec))
    (dao : String → Option (List Mat)) (coA cvA coB cvB : Mat) (op : operator_spec) :
    stripRsp (read_op read nd dmo dao coA cvA coB cvB op) = stripRsp op := by
  obtain ⟨label, d, ints, ra, rb, va, vb⟩ := op
  simp only [read_op]
  split_ifs <;> rfl

theorem read_ops_strip (read : Int) (nd : Nat) (dmo : String → Option (List Vec))
    (dao : String → Option (List Mat)) (coA cvA coB cvB : Mat) (ops : List operator_spec) :
    (read_ops read nd dmo dao coA cvA coB cvB ops).map stripRsp = ops.map stripRsp :=
  map_strip_congr _ (strip_read_op read nd dmo dao coA cvA coB cvB) ops

/-- Gradient formation on identical channel blocks: the two-channel batch is
the channel-duplication of the single-channel batch, up to response-vector
state. -/
theorem rhs_step_chan_dup (coA cvA coB cvB : Mat) :
    ∀ ops : List operator_spec,
      (rhs_step_core 2 coA cvA coA cvA ops).map stripRsp =
        ((rhs_step_core 1 coA cvA coB cvB ops).map stripRsp).map chanDup := by
  intro ops
  simp only [rhs_step_core, List.map_map]
  exact list_map_ext _ _
    (fun op => by obtain ⟨label, d, ints, ra, rb, va, vb⟩ := op; rfl) ops

/-- One loop iteration on a channel-duplicated batch under a channel-local
solver: the two-channel per-frequency cube is the alpha cube twice, and the
relation is preserved on the outgoing batches. -/
theorem freq_step_chan_dup (g : List Vec → ℚ → List Vec)
    (slv2 slv1 : List operator_spec → ℚ → List operator_spec)
    (Hg2 : ∀ ops w, slv2 ops w = ops.map (setg g w))
    (Hg1 : ∀ ops w, slv1 ops w = ops.map (setg g w))
    (read pl : Int) (mask : Bool) (ia ib1 : List Nat) (eda edb1 : Mat)
    (o1 o2 : List operator_spec) (w : ℚ)
    (h : o2.map stripRsp = (o1.map stripRsp).map chanDup) :
    (freq_step_core slv2 read pl 2 mask [ia, ia] eda eda o2 w).2 =
      [((freq_step_core slv1 read pl 1 mask [ia, ib1] eda edb1 o1 w).2).getD 0 [],
        ((freq_step_core slv1 read pl 1 mask [ia, ib1] eda edb1 o1 w).2).getD 0 []]
    ∧ (freq_step_core slv2 read pl 2 mask [ia, ia] eda eda o2 w).1.map stripRsp =
        ((freq_step_core slv1 read pl 1 mask [ia, ib1] eda edb1 o1 w).1.map
          stripRsp).map chanDup := by
  have hrelG : (guess_ops read 2 eda eda w o2).map stripRsp =
      ((guess_ops read 1 eda edb1 w o1).map stripRsp).map chanDup := by
    rw [guess_ops_strip, guess_ops_strip, h]
  obtain ⟨hA, hRA, hB, hRB⟩ :=
    pools_chan_dup g w (guess_ops read 1 eda edb1 w o1) (guess_ops read 2 eda eda w o2) hrelG
  constructor
  · simp only [freq_step_core]
    rw [Hg2, Hg1]
    simp only [form_results_sel, form_results, results_slice]
    cases mask with
    | false =>
      simp only [Bool.false_eq_true, if_false, Option.map_none']
      rw [hA, hRA, hB, hRB]
      rfl
    | true =>
      simp only [if_true, Option.map_some', List.getD_cons_zero, List.getD_cons_succ]
      rw [hA, hRA, hB, hRB]
      rfl
  · simp only [freq_step_core]
    rw [Hg2, Hg1]
    rw [map_strip_congr _ (strip_setg g w), map_strip_congr _ (strip_setg g w)]
    exact hrelG

theorem freq_loop_chan_dup (g : List Vec → ℚ → List Vec)
    (slv2 slv1 : List operator_spec → ℚ → List operator_spec)
    (Hg2 : ∀ ops w, slv2 ops w = ops.map (setg g w))
    (Hg1 : ∀ ops w, slv1 ops w = ops.map (setg g w))
    (read pl : Int) (mask : Bool) (ia ib1 : List Nat) (eda edb1 : Mat) :
    ∀ (ws : List ℚ) (o1 o2 : List operator_spec),
      o2.map stripRsp = (o1.map stripRsp).map chanDup →
      freq_loop_core slv2 read pl 2 mask [ia, ia] eda eda o2 ws =
        (freq_loop_core slv1 read pl 1 mask [ia, ib1] eda edb1 o1 ws).map
          (fun c => [c.getD 0 [], c.getD 0 []]) := by
  intro ws
  induction ws with
  | nil => intro o1 o2 h; rfl
  | cons w rest ih =>
    intro o1 o2 h
    obtain ⟨h2, hrel⟩ :=
      freq_step_chan_dup g slv2 slv1 Hg2 Hg1 read pl mask ia ib1 eda edb1 o1 o2 w h
    simp only [freq_loop_core, List.map_cons]
    rw [h2, ih _ _ hrel]

theorem scale2_add_self (A : Mat) : mat_scale 2 (mat_add A A) = mat_scale 4 A := by
  unfold mat_scale mat_add
  rw [List.zipWith_same]
  simp only [List.map_map]
  apply list_map_ext
  intro r
  simp only [Function.comp]
  rw [List.zipWith_same]
  simp only [List.map_map]
  apply list_map_ext
  intro x
  simp only [Function.comp]
  ring

/-- C7: for a two-channel input whose alpha and beta coefficient blocks, Fock
slices, occupations and per-fragment occupations are identical, driven by a
channel-local solver (`Hg`: the solver replaces each operator's response
vectors by a function `g` of that channel's gradients and the frequency), the
combined final tensor equals 4 times the tensor of the corresponding
single-channel call. -/
theorem C7_theorem (inp : SolveInputs)
    (hC2 : inp.C.length = 2)
    (hCeq : inp.C.getD 1 [] = inp.C.getD 0 [])
    (hFeq : inp.F.getD 1 [] = inp.F.getD 0 [])
    (hocc2 : inp.occupations.getD 2 0 = inp.occupations.getD 0 0)
    (hocc3 : inp.occupations.getD 3 0 = inp.occupations.getD 1 0)
    (hfrag : inp.fragment_occupations.map (fun r => r.getD 3 0) =
        inp.fragment_occupations.map (fun r => r.getD 2 0))
    (g : List Vec → ℚ → List Vec)
    (Hg : ∀ ops w, inp.solverRun ops w = ops.map (setg g w)) :
    final_results inp = (final_results (single_channel inp)).map (mat_scale 4) := by
  have hnd : nden inp = 2 := hC2
  have hnd1 : nden (single_channel inp) = 1 := rfl
  have hidx : indices_mo_beta inp = indices_mo_alph inp := by
    simp only [indices_mo_beta, indices_mo_alph, indices_mo_beta_sel, indices_mo_alph_sel]
    rw [hfrag]
  have hsigma : sigma_beta inp = sigma_alph inp := by
    unfold sigma_beta sigma_alph
    rw [hCeq]
  have hFmo : F_mo_beta inp = F_mo_alph inp := by
    unfold F_mo_beta F_mo_alph
    rw [hCeq, hFeq]
  have hnoccb : nocc_beta inp = nocc_alph inp := hocc2
  have hnvb : nvirt_beta inp = nvirt_alph inp := hocc3
  have hediff : ediff_beta inp = ediff_alph inp := by
    simp only [ediff_beta, ediff_alph]
    rw [hFmo, hsigma, hnoccb, hnvb, hidx]
  have hoccblk : C_occ_beta inp = C_occ_alph inp := by
    unfold C_occ_beta C_occ_alph
    rw [hCeq, hnoccb]
  have hvirtblk : C_virt_beta inp = C_virt_alph inp := by
    unfold C_virt_beta C_virt_alph
    rw [hCeq, hnoccb]
  have hprep : (operators_prepared inp).map stripRsp =
      ((operators_prepared (single_channel inp)).map stripRsp).map chanDup := by
    show (read_ops inp.cfg.read (nden inp) inp.diskMo inp.diskAo (C_occ_alph inp)
        (C_virt_alph inp) (C_occ_beta inp) (C_virt_beta inp)
        (rhs_step_core (nden inp) (C_occ_alph inp) (C_virt_alph inp) (C_occ_beta inp)
          (C_virt_beta inp) inp.operators)).map stripRsp =
      ((read_ops inp.cfg.read 1 inp.diskMo inp.diskAo (C_occ_alph inp) (C_virt_alph inp)
        (C_occ_beta (single_channel inp)) (C_virt_beta (single_channel inp))
        (rhs_step_core 1 (C_occ_alph inp) (C_virt_alph inp) (C_occ_beta (single_channel inp))
          (C_virt_beta (single_channel inp)) inp.operators)).map stripRsp).map chanDup
    rw [hnd, hoccblk, hvirtblk, read_ops_strip, read_ops_strip]
    exact rhs_step_chan_dup (C_occ_alph inp) (C_virt_alph inp)
      (C_occ_beta (single_channel inp)) (C_virt_beta (single_channel inp)) inp.operators
  have hloop : freq_loop inp =
      (freq_loop (single_channel inp)).map (fun c => [c.getD 0 [], c.getD 0 []]) := by
    show freq_loop_core inp.solverRun inp.cfg.read inp.cfg.print_level (nden inp)
        inp.cfg.mask_form_results_mo [indices_mo_alph inp, indices_mo_beta inp]
        (ediff_alph inp) (ediff_beta inp) (operators_prepared inp) inp.omega =
      (freq_loop_core inp.solverRun inp.cfg.read inp.cfg.print_level 1
        inp.cfg.mask_form_results_mo [indices_mo_alph inp, indices_mo_beta inp]
        (ediff_alph inp) (ediff_beta (single_channel inp))
        (operators_prepared (single_channel inp)) inp.omega).map
          (fun c => [c.getD 0 [], c.getD 0 []])
    rw [hnd, hidx, hediff]
    exact freq_loop_chan_dup g inp.solverRun inp.solverRun Hg Hg inp.cfg.read
      inp.cfg.print_level inp.cfg.mask_form_results_mo (indices_mo_alph inp)
      (indices_mo_alph inp) (ediff_alph inp) (ediff_beta (single_channel inp))
      inp.omega (operators_prepared (single_channel inp)) (operators_prepared inp) hprep
  have hX : results_alph inp = results_alph (single_channel inp) := by
    unfold results_alph
    rw [hloop]
    simp only [List.map_map]
    exact list_map_ext _ _ (fun c => rfl) _
  have hY : results_beta inp = results_alph (single_channel inp) := by
    unfold results_beta results_alph
    rw [hloop]
    simp only [List.map_map]
    exact list_map_ext _ _ (fun c => rfl) _
  unfold final_results
  rw [hnd, if_neg (by decide : ¬(2 : Nat) = 1)]
  unfold combine_channels
  rw [hX, hY, hnd1]
  simp only [reduceIte]
  rw [List.zipWith_same]
  exact list_map_ext _ _ (fun A => scale2_add_self A) _

/-- Witness for C7 at the concrete symmetric two-channel input `inp7`. -/
theorem C7_witness :
    final_results inp7 = (final_results (single_channel inp7)).map (mat_scale 4) :=
  C7_theorem inp7 (by decide) (by decide) (by decide) (by decide) (by decide) (by decide)
    gsol (fun ops w => rfl)
